import Mathlib

/-!
Verification of the rate-limiting / quota core of the `llm-poi-finder`
backend (files `backend/app/middleware/rate_limiter.py` and
`backend/app/config.py`), as a shallow embedding.

Modelling conventions:
* Wall-clock timestamps and token counts are rationals (`ℚ`); Python's
  float arithmetic is modelled exactly.
* Python's `int(x)` conversion (truncation toward zero) is `pyTrunc`.
* A Python `dict` / `defaultdict` keyed by strings is a function
  `String → Option _` (absent key ↦ `none`); `dict.get(k, 0)` reads the
  default through `Option.getD`.
* Each mutating method becomes a function returning the updated state
  (paired with the method's return value); `time.time()` becomes an
  explicit `now : ℚ` argument supplied per call.
-/

namespace PoiFinder

/-- Python `int(x)` applied to a rational: truncation toward zero. -/
def pyTrunc (q : ℚ) : ℤ :=
  if 0 ≤ q then ⌊q⌋ else ⌈q⌉

/-- `TokenBucket` state: fields `rate`, `capacity`, `tokens`,
`last_update` of the Python class. -/
structure TokenBucket where
  rate : ℚ
  capacity : ℚ
  tokens : ℚ
  last_update : ℚ
  deriving DecidableEq

namespace TokenBucket

/-- `TokenBucket.__init__(rate, capacity)`: starts full
(`self.tokens = capacity`) with `last_update = time.time()`. -/
def init (rate capacity now : ℚ) : TokenBucket :=
  { rate := rate, capacity := capacity, tokens := capacity, last_update := now }

/-- `TokenBucket._refill()`: `elapsed = now - last_update`;
`tokens = min(capacity, tokens + elapsed * rate)`; `last_update = now`. -/
def refill (b : TokenBucket) (now : ℚ) : TokenBucket :=
  { b with
    tokens := min b.capacity (b.tokens + (now - b.last_update) * b.rate)
    last_update := now }

/-- `TokenBucket.consume(tokens)`: refill, then consume if
`self.tokens >= tokens`; returns whether consumption happened together
with the updated bucket. -/
def consume (b : TokenBucket) (now : ℚ) (n : ℤ) : Bool × TokenBucket :=
  let b2 := refill b now
  if (n : ℚ) ≤ b2.tokens then
    (true, { b2 with tokens := b2.tokens - (n : ℚ) })
  else
    (false, b2)

/-- `TokenBucket.time_until_available(tokens)`: refill, return `0` when
enough tokens are present, else `needed / rate`; the refilled bucket is
the updated state. -/
def timeUntilAvailable (b : TokenBucket) (now : ℚ) (n : ℤ) : ℚ × TokenBucket :=
  let b2 := refill b now
  if (n : ℚ) ≤ b2.tokens then
    (0, b2)
  else
    (((n : ℚ) - b2.tokens) / b2.rate, b2)

end TokenBucket

/-- `RateLimiter` state: configuration, the per-client bucket map
`_buckets`, and the cleanup bookkeeping `_last_cleanup`,
`_cleanup_interval`. -/
structure RateLimiter where
  requests_per_window : ℤ
  window_seconds : ℤ
  rate : ℚ
  capacity : ℤ
  buckets : String → Option TokenBucket
  last_cleanup : ℚ
  cleanup_interval : ℚ

namespace RateLimiter

/-- `RateLimiter.__init__(requests_per_window, window_seconds,
burst_multiplier)`: `rate = requests_per_window / window_seconds`,
`capacity = int(requests_per_window * burst_multiplier)`, empty bucket
map, `_last_cleanup = time.time()`, `_cleanup_interval = 3600`. -/
def init (requests window : ℤ) (burst : ℚ) (now : ℚ) : RateLimiter :=
  { requests_per_window := requests
    window_seconds := window
    rate := (requests : ℚ) / (window : ℚ)
    capacity := pyTrunc ((requests : ℚ) * burst)
    buckets := fun _ => none
    last_cleanup := now
    cleanup_interval := 3600 }

/-- `RateLimiter._maybe_cleanup()`: return unchanged while
`now - _last_cleanup < _cleanup_interval`; otherwise drop every bucket
with `now - bucket.last_update > _cleanup_interval` and set
`_last_cleanup = now`. -/
def maybeCleanup (rl : RateLimiter) (now : ℚ) : RateLimiter :=
  if now - rl.last_cleanup < rl.cleanup_interval then rl
  else
    { rl with
      buckets := fun k =>
        match rl.buckets k with
        | none => none
        | some b =>
          if now - b.last_update > rl.cleanup_interval then none else some b
      last_cleanup := now }

/-- `self._buckets[client_id]` on the `defaultdict`: return the existing
bucket, or create (and store) `TokenBucket(self.rate, self.capacity)`. -/
def getBucket (rl : RateLimiter) (k : String) (now : ℚ) :
    TokenBucket × RateLimiter :=
  match rl.buckets k with
  | some b => (b, rl)
  | none =>
    let b := TokenBucket.init rl.rate (rl.capacity : ℚ) now
    (b, { rl with buckets := fun k2 => if k2 = k then some b else rl.buckets k2 })

/-- Store back the (mutated-in-place in Python) bucket under key `k`. -/
def setBucket (rl : RateLimiter) (k : String) (b : TokenBucket) : RateLimiter :=
  { rl with buckets := fun k2 => if k2 = k then some b else rl.buckets k2 }

/-- `RateLimiter.is_allowed(client_id)`: run `_maybe_cleanup`, fetch the
client's bucket, try `consume()`; on success return `(True, 0)`, else
return `(False, int(bucket.time_until_available()) + 1)`. -/
def isAllowed (rl : RateLimiter) (k : String) (now : ℚ) :
    (Bool × ℤ) × RateLimiter :=
  let rl1 := maybeCleanup rl now
  let p := getBucket rl1 k now
  let c := TokenBucket.consume p.1 now 1
  if c.1 then
    ((true, 0), setBucket p.2 k c.2)
  else
    let t := TokenBucket.timeUntilAvailable c.2 now 1
    ((false, pyTrunc t.1 + 1), setBucket p.2 k t.2)

/-- Every bucket stored in the map carries the limiter's refill rate. -/
def RatesOk (rl : RateLimiter) : Prop :=
  ∀ k b, rl.buckets k = some b → b.rate = rl.rate

end RateLimiter

/-- `QuotaTracker` state: `daily_limit` and the `_usage` dict. -/
structure QuotaTracker where
  daily_limit : ℤ
  usage : String → Option ℤ

namespace QuotaTracker

/-- `self._usage.get(user_id, 0)`. -/
def usageGet (q : QuotaTracker) (k : String) : ℤ :=
  (q.usage k).getD 0

/-- `QuotaTracker.check_quota(user_id)`: `current < daily_limit`; the
method only reads, so the state comes back unchanged. -/
def checkQuota (q : QuotaTracker) (k : String) : Bool × QuotaTracker :=
  (decide (q.usageGet k < q.daily_limit), q)

/-- `QuotaTracker.increment_usage(user_id, amount)`: add `amount` to the
stored counter (default `0`) and return the new total. -/
def incrementUsage (q : QuotaTracker) (k : String) (amount : ℤ) :
    ℤ × QuotaTracker :=
  let newTotal := q.usageGet k + amount
  (newTotal,
    { q with usage := fun k2 => if k2 = k then some newTotal else q.usage k2 })

/-- `QuotaTracker.get_remaining(user_id)`: `max(0, daily_limit - current)`. -/
def getRemaining (q : QuotaTracker) (k : String) : ℤ :=
  max 0 (q.daily_limit - q.usageGet k)

end QuotaTracker

/-- Run a list of `consume` calls, each given as `(now, amount)`. -/
def runConsumes (b : TokenBucket) : List (ℚ × ℤ) → TokenBucket
  | [] => b
  | (t, n) :: rest => runConsumes (TokenBucket.consume b t n).2 rest

/-- A call list is chronological from start time `t0` and asks for
nonnegative token amounts. -/
def ValidCalls (t0 : ℚ) : List (ℚ × ℤ) → Prop
  | [] => True
  | (t, n) :: rest => t0 ≤ t ∧ 0 ≤ n ∧ ValidCalls t rest

/-- Results of `n` consecutive unit `consume` calls at a fixed time. -/
def consumeResults (b : TokenBucket) (now : ℚ) : ℕ → List Bool
  | 0 => []
  | n + 1 =>
    let c := TokenBucket.consume b now 1
    c.1 :: consumeResults c.2 now n

/-- Run a list of `is_allowed` calls, each given as `(client_id, now)`. -/
def runCalls (rl : RateLimiter) : List (String × ℚ) → RateLimiter
  | [] => rl
  | (k, t) :: rest => runCalls (rl.isAllowed k t).2 rest

/-- Run `is_allowed` calls for one fixed client at the given times. -/
def runClient (rl : RateLimiter) (k : String) : List ℚ → RateLimiter
  | [] => rl
  | t :: rest => runClient (rl.isAllowed k t).2 k rest

/-- A concrete limiter state exercising the cleanup sweep: one bucket
idle since time 0, one touched at time 3000, last sweep at time 0. -/
def sweepSample : RateLimiter :=
  { requests_per_window := 1
    window_seconds := 1
    rate := 1
    capacity := 1
    buckets := fun k =>
      if k = "old" then some ⟨1, 1, 1, 0⟩
      else if k = "new" then some ⟨1, 1, 1, 3000⟩ else none
    last_cleanup := 0
    cleanup_interval := 3600 }

namespace TokenBucket

/-- Refilling never pushes the token count above capacity. -/
theorem refill_tokens_le_capacity (b : TokenBucket) (now : ℚ) :
    (b.refill now).tokens ≤ (b.refill now).capacity :=
  min_le_left _ _

/-- Under a forward clock and nonnegative rate, refilling keeps the token
count nonnegative. -/
theorem refill_tokens_nonneg (b : TokenBucket) (now : ℚ)
    (hr : 0 ≤ b.rate) (h0 : 0 ≤ b.tokens) (hcap : 0 ≤ b.capacity)
    (ht : b.last_update ≤ now) : 0 ≤ (b.refill now).tokens := by
  refine le_min hcap ?_
  have : 0 ≤ (now - b.last_update) * b.rate :=
    mul_nonneg (by linarith) hr
  linarith

theorem refill_rate (b : TokenBucket) (now : ℚ) :
    (b.refill now).rate = b.rate := rfl

theorem refill_capacity (b : TokenBucket) (now : ℚ) :
    (b.refill now).capacity = b.capacity := rfl

theorem refill_last_update (b : TokenBucket) (now : ℚ) :
    (b.refill now).last_update = now := rfl

/-- Refilling twice at the same instant is the same as refilling once. -/
theorem refill_refill (b : TokenBucket) (now : ℚ) :
    (b.refill now).refill now = b.refill now := by
  simp [refill, min_eq_right (min_le_left b.capacity _)]

theorem consume_rate (b : TokenBucket) (now : ℚ) (n : ℤ) :
    (b.consume now n).2.rate = b.rate := by
  unfold consume
  dsimp only
  split <;> rfl

theorem consume_capacity (b : TokenBucket) (now : ℚ) (n : ℤ) :
    (b.consume now n).2.capacity = b.capacity := by
  unfold consume
  dsimp only
  split <;> rfl

theorem consume_last_update (b : TokenBucket) (now : ℚ) (n : ℤ) :
    (b.consume now n).2.last_update = now := by
  unfold consume
  dsimp only
  split <;> rfl

/-- A failed `consume` leaves the bucket exactly refilled. -/
theorem consume_fail (b : TokenBucket) (now : ℚ) (n : ℤ)
    (h : (b.consume now n).1 = false) : (b.consume now n).2 = b.refill now := by
  unfold consume at h ⊢
  dsimp only at h ⊢
  split at h
  · simp at h
  · split
    · simp_all [consume]
    · rfl

theorem timeUntilAvailable_last_update (b : TokenBucket) (now : ℚ) (n : ℤ) :
    (b.timeUntilAvailable now n).2.last_update = now := by
  unfold timeUntilAvailable
  dsimp only
  split <;> rfl

theorem timeUntilAvailable_rate (b : TokenBucket) (now : ℚ) (n : ℤ) :
    (b.timeUntilAvailable now n).2.rate = b.rate := by
  unfold timeUntilAvailable
  dsimp only
  split <;> rfl

/-- `time_until_available` on an already-refilled bucket agrees with
`time_until_available` on the original bucket at the same instant. -/
theorem timeUntilAvailable_refill (b : TokenBucket) (now : ℚ) (n : ℤ) :
    (b.refill now).timeUntilAvailable now n = b.timeUntilAvailable now n := by
  unfold timeUntilAvailable
  rw [refill_refill]

/-- Single-call preservation of the capacity bound, together with the
clock and configuration bookkeeping. -/
theorem consume_inv (b : TokenBucket) (now : ℚ) (n : ℤ)
    (hr : 0 ≤ b.rate) (h0 : 0 ≤ b.tokens) (h1 : b.tokens ≤ b.capacity)
    (ht : b.last_update ≤ now) (hn : 0 ≤ n) :
    0 ≤ (b.consume now n).2.tokens ∧
      (b.consume now n).2.tokens ≤ (b.consume now n).2.capacity := by
  have hcap : 0 ≤ b.capacity := le_trans h0 h1
  have hnn := refill_tokens_nonneg b now hr h0 hcap ht
  have hle := refill_tokens_le_capacity b now
  unfold consume
  dsimp only
  split
  · next h =>
    refine ⟨?_, ?_⟩
    · simpa using sub_nonneg.mpr h
    · have hnq : (0 : ℚ) ≤ (n : ℚ) := by exact_mod_cast hn
      have hcl : (b.refill now).tokens ≤ b.capacity := by
        simpa [refill_capacity] using hle
      have : (b.refill now).tokens - (n : ℚ) ≤ b.capacity := by linarith
      simpa [refill_capacity] using this
  · exact ⟨hnn, hle⟩

end TokenBucket

/-- The capacity bound is preserved along any chronological sequence of
`consume` calls. -/
theorem runConsumes_inv (calls : List (ℚ × ℤ)) (b : TokenBucket)
    (hr : 0 ≤ b.rate) (h0 : 0 ≤ b.tokens) (h1 : b.tokens ≤ b.capacity)
    (hv : ValidCalls b.last_update calls) :
    0 ≤ (runConsumes b calls).tokens ∧
      (runConsumes b calls).tokens ≤ (runConsumes b calls).capacity := by
  induction calls generalizing b with
  | nil => exact ⟨h0, h1⟩
  | cons c rest ih =>
    obtain ⟨t, n⟩ := c
    obtain ⟨ht, hn, hv2⟩ := hv
    have step := TokenBucket.consume_inv b t n hr h0 h1 ht hn
    have hrate := TokenBucket.consume_rate b t n
    have hcap := TokenBucket.consume_capacity b t n
    have hclock := TokenBucket.consume_last_update b t n
    refine ih (b.consume t n).2 ?_ step.1 ?_ ?_
    · rw [hrate]; exact hr
    · exact step.2
    · rw [hclock]; exact hv2

/-- Refilling at the very instant of the last update is a no-op on a
bucket whose tokens respect capacity. -/
theorem TokenBucket.refill_now (rate cap x t0 : ℚ) (hx : x ≤ cap) :
    TokenBucket.refill ⟨rate, cap, x, t0⟩ t0 = ⟨rate, cap, x, t0⟩ := by
  simp [TokenBucket.refill, min_eq_right hx]

/-- With at least one token and no elapsed time, a unit `consume`
succeeds and removes exactly one token. -/
theorem TokenBucket.consume_unit_pos (rate cap x t0 : ℚ)
    (hx : x ≤ cap) (h1 : 1 ≤ x) :
    TokenBucket.consume ⟨rate, cap, x, t0⟩ t0 1 = (true, ⟨rate, cap, x - 1, t0⟩) := by
  unfold TokenBucket.consume
  rw [TokenBucket.refill_now rate cap x t0 hx]
  simp [h1]

/-- With less than one token and no elapsed time, a unit `consume`
fails and changes nothing. -/
theorem TokenBucket.consume_unit_neg (rate cap x t0 : ℚ)
    (hx : x ≤ cap) (h1 : ¬ (1 : ℚ) ≤ x) :
    TokenBucket.consume ⟨rate, cap, x, t0⟩ t0 1 = (false, ⟨rate, cap, x, t0⟩) := by
  unfold TokenBucket.consume
  rw [TokenBucket.refill_now rate cap x t0 hx]
  simp [h1]

/-- `m + 1` zero-elapsed-time unit consumes on a bucket holding `m`
tokens: the first `m` succeed, the last fails. -/
theorem consumeResults_count (m : ℕ) (rate cap t0 : ℚ) (h : (m : ℚ) ≤ cap) :
    consumeResults ⟨rate, cap, (m : ℚ), t0⟩ t0 (m + 1) =
      List.replicate m true ++ [false] := by
  induction m with
  | zero =>
    have h0 : ¬ (1 : ℚ) ≤ ((0 : ℕ) : ℚ) := by norm_num
    simp only [consumeResults]
    rw [TokenBucket.consume_unit_neg rate cap _ t0 h h0]
    simp [consumeResults]
  | succ m ih =>
    have h1 : (1 : ℚ) ≤ ((m + 1 : ℕ) : ℚ) := by push_cast; linarith
    have hm : (m : ℚ) ≤ cap := by push_cast at h ⊢; linarith
    simp only [consumeResults]
    rw [TokenBucket.consume_unit_pos rate cap _ t0 h h1]
    have hsub : ((m + 1 : ℕ) : ℚ) - 1 = (m : ℚ) := by push_cast; ring
    rw [hsub] at *
    simp only [List.replicate_succ, List.cons_append]
    exact congrArg (List.cons true) (ih hm)

namespace RateLimiter

/-- When the interval has not elapsed since the last sweep,
`_maybe_cleanup` is a no-op. -/
theorem maybeCleanup_skip (rl : RateLimiter) (now : ℚ)
    (h : now - rl.last_cleanup < rl.cleanup_interval) :
    rl.maybeCleanup now = rl := by
  simp [maybeCleanup, h]

/-- When the interval has elapsed, the sweep records `now` as the last
cleanup time. -/
theorem maybeCleanup_due_stamp (rl : RateLimiter) (now : ℚ)
    (h : rl.cleanup_interval ≤ now - rl.last_cleanup) :
    (rl.maybeCleanup now).last_cleanup = now := by
  simp [maybeCleanup, not_lt.mpr h]

/-- A due sweep removes exactly the buckets whose `last_update` is more
than the interval old. -/
theorem maybeCleanup_due_buckets (rl : RateLimiter) (now : ℚ) (k : String)
    (h : rl.cleanup_interval ≤ now - rl.last_cleanup) :
    (rl.maybeCleanup now).buckets k =
      match rl.buckets k with
      | none => none
      | some b =>
        if rl.cleanup_interval < now - b.last_update then none else some b := by
  simp [maybeCleanup, not_lt.mpr h]

theorem maybeCleanup_rate (rl : RateLimiter) (now : ℚ) :
    (rl.maybeCleanup now).rate = rl.rate := by
  unfold maybeCleanup
  split <;> rfl

theorem maybeCleanup_capacity (rl : RateLimiter) (now : ℚ) :
    (rl.maybeCleanup now).capacity = rl.capacity := by
  unfold maybeCleanup
  split <;> rfl

theorem maybeCleanup_interval (rl : RateLimiter) (now : ℚ) :
    (rl.maybeCleanup now).cleanup_interval = rl.cleanup_interval := by
  unfold maybeCleanup
  split <;> rfl

/-- A bucket either survives a `_maybe_cleanup` untouched or is dropped;
a bucket touched within the interval always survives. -/
theorem maybeCleanup_keep (rl : RateLimiter) (now : ℚ) (k : String)
    (b : TokenBucket) (hb : rl.buckets k = some b)
    (h : now - b.last_update ≤ rl.cleanup_interval) :
    (rl.maybeCleanup now).buckets k = some b := by
  unfold maybeCleanup
  split
  · exact hb
  · simp [hb, not_lt.mpr h]

theorem setBucket_self (rl : RateLimiter) (k : String) (b : TokenBucket) :
    (rl.setBucket k b).buckets k = some b := by
  simp [setBucket]

theorem setBucket_other (rl : RateLimiter) (k k2 : String) (b : TokenBucket)
    (h : k2 ≠ k) : (rl.setBucket k b).buckets k2 = rl.buckets k2 := by
  simp [setBucket, h]

theorem getBucket_other (rl : RateLimiter) (k k2 : String) (now : ℚ)
    (h : k2 ≠ k) : (rl.getBucket k now).2.buckets k2 = rl.buckets k2 := by
  unfold getBucket
  cases hk : rl.buckets k <;> simp [h]

/-- The bucket handed out by the `defaultdict` access: the stored one,
or a freshly created full bucket. -/
theorem getBucket_fst (rl : RateLimiter) (k : String) (now : ℚ) :
    (rl.getBucket k now).1 =
      (rl.buckets k).getD (TokenBucket.init rl.rate (rl.capacity : ℚ) now) := by
  unfold getBucket
  cases hk : rl.buckets k <;> simp

theorem getBucket_rate (rl : RateLimiter) (k : String) (now : ℚ) :
    (rl.getBucket k now).2.rate = rl.rate := by
  unfold getBucket
  cases hk : rl.buckets k <;> rfl

theorem getBucket_capacity (rl : RateLimiter) (k : String) (now : ℚ) :
    (rl.getBucket k now).2.capacity = rl.capacity := by
  unfold getBucket
  cases hk : rl.buckets k <;> rfl

theorem getBucket_interval (rl : RateLimiter) (k : String) (now : ℚ) :
    (rl.getBucket k now).2.cleanup_interval = rl.cleanup_interval := by
  unfold getBucket
  cases hk : rl.buckets k <;> rfl

theorem getBucket_last_cleanup (rl : RateLimiter) (k : String) (now : ℚ) :
    (rl.getBucket k now).2.last_cleanup = rl.last_cleanup := by
  unfold getBucket
  cases hk : rl.buckets k <;> rfl

/-- The admission decision and retry hint, written as a function of the
bucket the call operates on. -/
theorem isAllowed_fst (rl : RateLimiter) (k : String) (now : ℚ) :
    (rl.isAllowed k now).1 =
      (if (TokenBucket.consume ((rl.maybeCleanup now).getBucket k now).1 now 1).1
        then (true, 0)
        else (false,
          pyTrunc (TokenBucket.timeUntilAvailable
            (TokenBucket.consume ((rl.maybeCleanup now).getBucket k now).1 now 1).2
            now 1).1 + 1)) := by
  unfold isAllowed
  dsimp only
  split <;> simp_all

/-- The state after `is_allowed`: the operated-on bucket is written back
under the client's key. -/
theorem isAllowed_snd (rl : RateLimiter) (k : String) (now : ℚ) :
    (rl.isAllowed k now).2 =
      (if (TokenBucket.consume ((rl.maybeCleanup now).getBucket k now).1 now 1).1
        then ((rl.maybeCleanup now).getBucket k now).2.setBucket k
          (TokenBucket.consume ((rl.maybeCleanup now).getBucket k now).1 now 1).2
        else ((rl.maybeCleanup now).getBucket k now).2.setBucket k
          (TokenBucket.timeUntilAvailable
            (TokenBucket.consume ((rl.maybeCleanup now).getBucket k now).1 now 1).2
            now 1).2) := by
  unfold isAllowed
  dsimp only
  split <;> simp_all

theorem isAllowed_rate (rl : RateLimiter) (k : String) (now : ℚ) :
    (rl.isAllowed k now).2.rate = rl.rate := by
  rw [isAllowed_snd]
  split <;> simp [setBucket, getBucket_rate, maybeCleanup_rate]

theorem isAllowed_capacity (rl : RateLimiter) (k : String) (now : ℚ) :
    (rl.isAllowed k now).2.capacity = rl.capacity := by
  rw [isAllowed_snd]
  split <;> simp [setBucket, getBucket_capacity, maybeCleanup_capacity]

theorem isAllowed_interval (rl : RateLimiter) (k : String) (now : ℚ) :
    (rl.isAllowed k now).2.cleanup_interval = rl.cleanup_interval := by
  rw [isAllowed_snd]
  split <;> simp [setBucket, getBucket_interval, maybeCleanup_interval]

/-- A call that triggers no sweep only touches its own key: every other
key's bucket entry and the cleanup stamp are left alone. -/
theorem isAllowed_frame (rl : RateLimiter) (a k2 : String) (t : ℚ)
    (hne : k2 ≠ a) (hnd : t - rl.last_cleanup < rl.cleanup_interval) :
    (rl.isAllowed a t).2.buckets k2 = rl.buckets k2 ∧
      (rl.isAllowed a t).2.last_cleanup = rl.last_cleanup := by
  rw [isAllowed_snd, maybeCleanup_skip rl t hnd]
  constructor
  · split <;> rw [setBucket_other _ _ _ _ hne, getBucket_other _ _ _ _ hne]
  · split <;> simp [setBucket, getBucket_last_cleanup]

/-- The bucket map after `_maybe_cleanup`, at one key, depends only on
that key's entry and the shared cleanup bookkeeping. -/
theorem maybeCleanup_buckets_congr (s1 s2 : RateLimiter) (k : String) (t : ℚ)
    (hb : s1.buckets k = s2.buckets k) (hlc : s1.last_cleanup = s2.last_cleanup)
    (hi : s1.cleanup_interval = s2.cleanup_interval) :
    (s1.maybeCleanup t).buckets k = (s2.maybeCleanup t).buckets k := by
  unfold maybeCleanup
  rw [hlc, hi]
  split
  · exact hb
  · dsimp only
    rw [hb]

/-- The admission decision for a client depends only on that client's
bucket entry and the shared configuration and cleanup bookkeeping. -/
theorem isAllowed_congr (s1 s2 : RateLimiter) (k : String) (t : ℚ)
    (hb : s1.buckets k = s2.buckets k) (hlc : s1.last_cleanup = s2.last_cleanup)
    (hr : s1.rate = s2.rate) (hc : s1.capacity = s2.capacity)
    (hi : s1.cleanup_interval = s2.cleanup_interval) :
    (s1.isAllowed k t).1 = (s2.isAllowed k t).1 := by
  have hcb : (s1.maybeCleanup t).buckets k = (s2.maybeCleanup t).buckets k :=
    maybeCleanup_buckets_congr s1 s2 k t hb hlc hi
  have hfst : ((s1.maybeCleanup t).getBucket k t).1 =
      ((s2.maybeCleanup t).getBucket k t).1 := by
    rw [getBucket_fst, getBucket_fst, hcb, maybeCleanup_rate, maybeCleanup_rate,
      maybeCleanup_capacity, maybeCleanup_capacity, hr, hc]
  rw [isAllowed_fst, isAllowed_fst, hfst]

theorem maybeCleanup_ratesOk (rl : RateLimiter) (now : ℚ) (h : RatesOk rl) :
    RatesOk (rl.maybeCleanup now) := by
  intro k b hb
  rw [maybeCleanup_rate]
  unfold maybeCleanup at hb
  split at hb
  · exact h k b hb
  · dsimp only at hb
    cases hk : rl.buckets k with
    | none => rw [hk] at hb; simp at hb
    | some b2 =>
      rw [hk] at hb
      dsimp only at hb
      split at hb
      · exact Option.noConfusion hb
      · simp only [Option.some.injEq] at hb
        rw [← hb]
        exact h k b2 hk

theorem isAllowed_ratesOk (rl : RateLimiter) (k : String) (now : ℚ)
    (h : RatesOk rl) : RatesOk (rl.isAllowed k now).2 := by
  have h1 : RatesOk (rl.maybeCleanup now) := maybeCleanup_ratesOk rl now h
  have hfst : ((rl.maybeCleanup now).getBucket k now).1.rate = rl.rate := by
    rw [getBucket_fst]
    cases hk : (rl.maybeCleanup now).buckets k with
    | none => simp [TokenBucket.init, maybeCleanup_rate]
    | some b => simpa [maybeCleanup_rate rl now] using h1 k b hk
  intro k2 b2 hb2
  rw [isAllowed_rate] at *
  rw [isAllowed_snd] at hb2
  by_cases hk2 : k2 = k
  · subst hk2
    split at hb2 <;> rw [setBucket_self] at hb2 <;>
      simp only [Option.some.injEq] at hb2 <;> rw [← hb2]
    · rw [TokenBucket.consume_rate]
      exact hfst
    · rw [TokenBucket.timeUntilAvailable_rate, TokenBucket.consume_rate]
      exact hfst
  · have hg : ((rl.maybeCleanup now).getBucket k now).2.buckets k2 =
        (rl.maybeCleanup now).buckets k2 := getBucket_other _ _ _ _ hk2
    split at hb2 <;> rw [setBucket_other _ _ _ _ hk2, hg] at hb2 <;>
      simpa [maybeCleanup_rate rl now] using h1 k2 b2 hb2

theorem runCalls_ratesOk (calls : List (String × ℚ)) (rl : RateLimiter)
    (h : RatesOk rl) : RatesOk (runCalls rl calls) := by
  induction calls generalizing rl with
  | nil => exact h
  | cons c rest ih =>
    obtain ⟨k, t⟩ := c
    exact ih _ (isAllowed_ratesOk rl k t h)

theorem runCalls_rate (calls : List (String × ℚ)) (rl : RateLimiter) :
    (runCalls rl calls).rate = rl.rate := by
  induction calls generalizing rl with
  | nil => rfl
  | cons c rest ih =>
    obtain ⟨k, t⟩ := c
    rw [runCalls, ih, isAllowed_rate]

/-- A run of same-key calls none of which triggers a sweep leaves every
other key's entry, the cleanup stamp and the configuration unchanged. -/
theorem runClient_frame (times : List ℚ) (rl : RateLimiter) (a k2 : String)
    (hne : k2 ≠ a)
    (hns : ∀ t ∈ times, t - rl.last_cleanup < rl.cleanup_interval) :
    (runClient rl a times).buckets k2 = rl.buckets k2 ∧
      (runClient rl a times).last_cleanup = rl.last_cleanup ∧
      (runClient rl a times).rate = rl.rate ∧
      (runClient rl a times).capacity = rl.capacity ∧
      (runClient rl a times).cleanup_interval = rl.cleanup_interval := by
  induction times generalizing rl with
  | nil => exact ⟨rfl, rfl, rfl, rfl, rfl⟩
  | cons t rest ih =>
    have hh : t - rl.last_cleanup < rl.cleanup_interval := hns t (by simp)
    have hfr := isAllowed_frame rl a k2 t hne hh
    have hrest : ∀ t2 ∈ rest,
        t2 - (rl.isAllowed a t).2.last_cleanup <
          (rl.isAllowed a t).2.cleanup_interval := by
      intro t2 ht2
      rw [hfr.2, isAllowed_interval]
      exact hns t2 (by simp [ht2])
    have hr := ih (rl.isAllowed a t).2 hrest
    rw [runClient]
    refine ⟨?_, ?_, ?_, ?_, ?_⟩
    · rw [hr.1, hfr.1]
    · rw [hr.2.1, hfr.2]
    · rw [hr.2.2.1, isAllowed_rate]
    · rw [hr.2.2.2.1, isAllowed_capacity]
    · rw [hr.2.2.2.2, isAllowed_interval]

end RateLimiter

section Claims

open RateLimiter

/-- C2: for every token bucket created with nonnegative rate and
capacity, and every chronological sequence of `consume` calls asking for
nonnegative token amounts, `0 ≤ tokens ≤ capacity` holds after every
call (any observation point is the end of such a call list). -/
theorem C2_capacity_bound (rate cap t0 : ℚ) (calls : List (ℚ × ℤ))
    (hr : 0 ≤ rate) (hc : 0 ≤ cap) (hv : ValidCalls t0 calls) :
    0 ≤ (runConsumes (TokenBucket.init rate cap t0) calls).tokens ∧
      (runConsumes (TokenBucket.init rate cap t0) calls).tokens ≤
        (runConsumes (TokenBucket.init rate cap t0) calls).capacity :=
  runConsumes_inv calls (TokenBucket.init rate cap t0) hr hc le_rfl hv

theorem C2_capacity_bound_witness :
    0 ≤ (runConsumes (TokenBucket.init 1 2 0) [(0, 1), (5, 1)]).tokens ∧
      (runConsumes (TokenBucket.init 1 2 0) [(0, 1), (5, 1)]).tokens ≤
        (runConsumes (TokenBucket.init 1 2 0) [(0, 1), (5, 1)]).capacity :=
  C2_capacity_bound 1 2 0 [(0, 1), (5, 1)] (by norm_num) (by norm_num)
    (by norm_num [ValidCalls])

/-- C3: a fresh bucket with capacity `C` admits exactly `C` consecutive
unit `consume` calls with zero elapsed time and denies the `(C+1)`-th. -/
theorem C3_burst_admission (C : ℕ) (rate t0 : ℚ) :
    consumeResults (TokenBucket.init rate (C : ℚ) t0) t0 (C + 1) =
      List.replicate C true ++ [false] :=
  consumeResults_count C rate (C : ℚ) t0 le_rfl

/-- C4: in a due `_maybe_cleanup` pass, a bucket more than
`cleanup_interval` idle is removed and a bucket touched within the
interval survives; a pass before the interval has elapsed is a no-op,
and a due pass stamps `last_cleanup = now` (so sweeps run at most once
per interval). -/
theorem C4_idle_eviction (rl : RateLimiter) (now : ℚ) (k : String)
    (b : TokenBucket) :
    (rl.buckets k = some b → rl.cleanup_interval ≤ now - rl.last_cleanup →
      rl.cleanup_interval < now - b.last_update →
      (rl.maybeCleanup now).buckets k = none) ∧
    (rl.buckets k = some b → now - b.last_update ≤ rl.cleanup_interval →
      (rl.maybeCleanup now).buckets k = some b) ∧
    (now - rl.last_cleanup < rl.cleanup_interval → rl.maybeCleanup now = rl) ∧
    (rl.cleanup_interval ≤ now - rl.last_cleanup →
      (rl.maybeCleanup now).last_cleanup = now) := by
  refine ⟨?_, ?_, maybeCleanup_skip rl now, maybeCleanup_due_stamp rl now⟩
  · intro hb hdue hstale
    rw [maybeCleanup_due_buckets rl now k hdue, hb]
    simp [hstale]
  · intro hb htouch
    exact maybeCleanup_keep rl now k b hb htouch

theorem C4_idle_eviction_witness :
    (sweepSample.maybeCleanup 4000).buckets "old" = none ∧
    (sweepSample.maybeCleanup 4000).buckets "new" = some ⟨1, 1, 1, 3000⟩ ∧
    sweepSample.maybeCleanup 100 = sweepSample := by
  refine ⟨(C4_idle_eviction sweepSample 4000 "old" ⟨1, 1, 1, 0⟩).1 ?_ ?_ ?_,
    (C4_idle_eviction sweepSample 4000 "new" ⟨1, 1, 1, 3000⟩).2.1 ?_ ?_,
    (C4_idle_eviction sweepSample 100 "old" ⟨1, 1, 1, 0⟩).2.2.1 ?_⟩
  · simp [sweepSample]
  · norm_num [sweepSample]
  · norm_num [sweepSample]
  · simp [sweepSample, show ("new" : String) ≠ "old" by decide]
  · norm_num [sweepSample]
  · norm_num [sweepSample]

/-- C5 counterexample: with `requests_per_window = 3`,
`window_seconds = 2`, `burst_multiplier = 3/2`, the constructed capacity
is the truncated `int(3 * 3/2) = 4`, not the exact product `9/2`. -/
theorem C5_capacity_counterexample :
    (RateLimiter.init 3 2 (3 / 2) 0).rate = (3 : ℚ) / 2 ∧
    (RateLimiter.init 3 2 (3 / 2) 0).capacity = 4 ∧
    ((RateLimiter.init 3 2 (3 / 2) 0).capacity : ℚ) ≠ (3 : ℚ) * (3 / 2) := by
  have h4 : (RateLimiter.init 3 2 (3 / 2) 0).capacity = 4 := by
    show pyTrunc ((3 : ℚ) * (3 / 2)) = 4
    unfold pyTrunc
    rw [if_pos (by norm_num)]
    norm_num
  refine ⟨by norm_num [RateLimiter.init], h4, ?_⟩
  rw [h4]
  norm_num

/-- C5 amended: the refill rate is `requests_per_window /
window_seconds` and the capacity is the Python-`int`-truncated product
`int(requests_per_window * burst_multiplier)`; under a valid
configuration the rate is positive and the capacity at least
`requests_per_window`. -/
theorem C5_config (r w : ℤ) (burst now : ℚ)
    (h1 : 0 < r) (h2 : 0 < w) (h3 : 1 ≤ burst) :
    (RateLimiter.init r w burst now).rate = (r : ℚ) / (w : ℚ) ∧
    (RateLimiter.init r w burst now).capacity = pyTrunc ((r : ℚ) * burst) ∧
    0 < (RateLimiter.init r w burst now).rate ∧
    r ≤ (RateLimiter.init r w burst now).capacity := by
  refine ⟨rfl, rfl, ?_, ?_⟩
  · have hr : (0 : ℚ) < (r : ℚ) := by exact_mod_cast h1
    have hw : (0 : ℚ) < (w : ℚ) := by exact_mod_cast h2
    exact div_pos hr hw
  · show r ≤ pyTrunc ((r : ℚ) * burst)
    have hrq : (0 : ℚ) ≤ (r : ℚ) := by exact_mod_cast le_of_lt h1
    have hprod : (r : ℚ) ≤ (r : ℚ) * burst := le_mul_of_one_le_right hrq h3
    unfold pyTrunc
    rw [if_pos (le_trans hrq hprod)]
    exact Int.le_floor.mpr hprod

theorem C5_config_witness :
    (RateLimiter.init 100 3600 (3 / 2) 0).rate = (100 : ℚ) / 3600 ∧
    (RateLimiter.init 100 3600 (3 / 2) 0).capacity =
      pyTrunc ((100 : ℚ) * (3 / 2)) ∧
    0 < (RateLimiter.init 100 3600 (3 / 2) 0).rate ∧
    100 ≤ (RateLimiter.init 100 3600 (3 / 2) 0).capacity :=
  C5_config 100 3600 (3 / 2) 0 (by norm_num) (by norm_num) (by norm_num)

/-- C7: `check_quota(key)` is true exactly when
`usage.get(key, 0) < daily_limit`, and the call leaves the tracker's
state unchanged. -/
theorem C7_check_quota_pure (q : QuotaTracker) (k : String) :
    ((q.checkQuota k).1 = true ↔ q.usageGet k < q.daily_limit) ∧
    (q.checkQuota k).2 = q := by
  constructor
  · simp [QuotaTracker.checkQuota]
  · rfl

/-- C8: `get_remaining(key)` equals
`max(0, daily_limit - usage.get(key, 0))`, is never negative, and under
an `increment_usage(key, amount)` call with a positive amount it either
strictly decreases or is 0 afterwards. -/
theorem C8_remaining_monotone (q : QuotaTracker) (k : String) (a : ℤ)
    (ha : 1 ≤ a) :
    q.getRemaining k = max 0 (q.daily_limit - q.usageGet k) ∧
    0 ≤ q.getRemaining k ∧
    (((q.incrementUsage k a).2).getRemaining k < q.getRemaining k ∨
      ((q.incrementUsage k a).2).getRemaining k = 0) := by
  refine ⟨rfl, le_max_left _ _, ?_⟩
  have hg : ((q.incrementUsage k a).2).usageGet k = q.usageGet k + a := by
    simp [QuotaTracker.incrementUsage, QuotaTracker.usageGet]
  have hd : ((q.incrementUsage k a).2).daily_limit = q.daily_limit := rfl
  unfold QuotaTracker.getRemaining
  rw [hg, hd]
  omega

theorem C8_remaining_monotone_witness :
    (QuotaTracker.mk 1000 fun _ => none).getRemaining "u" =
      max 0 (1000 - (QuotaTracker.mk 1000 fun _ => none).usageGet "u") ∧
    0 ≤ (QuotaTracker.mk 1000 fun _ => none).getRemaining "u" ∧
    ((((QuotaTracker.mk 1000 fun _ => none).incrementUsage "u" 1).2).getRemaining "u" <
        (QuotaTracker.mk 1000 fun _ => none).getRemaining "u" ∨
      (((QuotaTracker.mk 1000 fun _ => none).incrementUsage "u" 1).2).getRemaining "u" = 0) :=
  C8_remaining_monotone (QuotaTracker.mk 1000 fun _ => none) "u" 1 (by norm_num)

/-- C1 amended: on a denied call the returned `retry_after` is
`int(time_until_available(1)) + 1` — Python truncation (floor for the
nonnegative wait), not ceiling — computed on the client's bucket at the
moment of the call. -/
theorem C1_retry_after_floor (rl : RateLimiter) (k : String) (now : ℚ)
    (h : ((rl.isAllowed k now).1).1 = false) :
    ((rl.isAllowed k now).1).2 =
      pyTrunc (TokenBucket.timeUntilAvailable
        ((rl.maybeCleanup now).getBucket k now).1 now 1).1 + 1 := by
  rw [isAllowed_fst] at h ⊢
  by_cases hc : (TokenBucket.consume ((rl.maybeCleanup now).getBucket k now).1 now 1).1
  · rw [if_pos hc] at h
    simp at h
  · have hc2 : (TokenBucket.consume ((rl.maybeCleanup now).getBucket k now).1 now 1).1 = false :=
      Bool.not_eq_true _ ▸ by simpa using hc
    rw [if_neg hc]
    rw [TokenBucket.consume_fail _ now 1 hc2, TokenBucket.timeUntilAvailable_refill]

theorem C1_retry_after_floor_witness :
    (((((RateLimiter.init 2 3 1 0).isAllowed "x" 0).2.isAllowed "x" 0).2.isAllowed "x" 0).1).2 =
      pyTrunc (TokenBucket.timeUntilAvailable
        ((((((RateLimiter.init 2 3 1 0).isAllowed "x" 0).2.isAllowed "x" 0).2).maybeCleanup 0).getBucket "x" 0).1
        0 1).1 + 1 :=
  C1_retry_after_floor
    ((((RateLimiter.init 2 3 1 0).isAllowed "x" 0).2.isAllowed "x" 0).2) "x" 0
    (by norm_num [RateLimiter.init, RateLimiter.isAllowed, RateLimiter.maybeCleanup,
      RateLimiter.getBucket, RateLimiter.setBucket, TokenBucket.init,
      TokenBucket.consume, TokenBucket.refill, TokenBucket.timeUntilAvailable,
      pyTrunc, min_def])

/-- C1 counterexample: with `requests_per_window = 2`,
`window_seconds = 3`, `burst_multiplier = 1`, the third back-to-back
call for a client is denied with `retry_after = 2`
(`int(3/2) + 1`), while `ceil(time_until_available(1)) + 1 = 3` on that
same bucket — so the denied call does not return the ceiling formula. -/
theorem C1_ceil_counterexample :
    (((((RateLimiter.init 2 3 1 0).isAllowed "x" 0).2.isAllowed "x" 0).2.isAllowed "x" 0).1).1 = false ∧
    (((((RateLimiter.init 2 3 1 0).isAllowed "x" 0).2.isAllowed "x" 0).2.isAllowed "x" 0).1).2 = 2 ∧
    ⌈(TokenBucket.timeUntilAvailable
        ((((((RateLimiter.init 2 3 1 0).isAllowed "x" 0).2.isAllowed "x" 0).2).maybeCleanup 0).getBucket "x" 0).1
        0 1).1⌉ + 1 = 3 := by
  have hceil : ⌈(3 : ℚ) / 2⌉ = 2 := by
    rw [Int.ceil_eq_iff]
    norm_num
  refine ⟨?_, ?_, ?_⟩ <;>
    norm_num [RateLimiter.init, RateLimiter.isAllowed, RateLimiter.maybeCleanup,
      RateLimiter.getBucket, RateLimiter.setBucket, TokenBucket.init,
      TokenBucket.consume, TokenBucket.refill, TokenBucket.timeUntilAvailable,
      pyTrunc, min_def, hceil]

/-- C6 amended: as long as none of client A's calls triggers a cleanup
sweep (each call time stays within `cleanup_interval` of
`last_cleanup`), any sequence of A-calls — in particular one exhausting
A's bucket — leaves B's bucket entry unchanged and does not change the
outcome of B's next call. (Without that proviso the claim fails, see the
counterexample: an A-call may run the sweep and re-stamp `last_cleanup`,
changing whether B's own next call sweeps B's stale bucket away.) -/
theorem C6_per_key_independence (rl : RateLimiter) (a bk : String)
    (times : List ℚ) (t2 : ℚ) (hne : bk ≠ a)
    (hns : ∀ t ∈ times, t - rl.last_cleanup < rl.cleanup_interval) :
    (runClient rl a times).buckets bk = rl.buckets bk ∧
    ((runClient rl a times).isAllowed bk t2).1 = (rl.isAllowed bk t2).1 := by
  have hfr := runClient_frame times rl a bk hne hns
  exact ⟨hfr.1,
    isAllowed_congr _ _ bk t2 hfr.1 hfr.2.1 hfr.2.2.1 hfr.2.2.2.1 hfr.2.2.2.2⟩

theorem C6_per_key_independence_witness :
    (runClient (RateLimiter.init 1 1 1 0) "a" [10]).buckets "b" =
      (RateLimiter.init 1 1 1 0).buckets "b" ∧
    ((runClient (RateLimiter.init 1 1 1 0) "a" [10]).isAllowed "b" 20).1 =
      ((RateLimiter.init 1 1 1 0).isAllowed "b" 20).1 :=
  C6_per_key_independence (RateLimiter.init 1 1 1 0) "a" "b" [10] 20
    (by decide)
    (by intro t ht
        simp only [List.mem_singleton] at ht
        subst ht
        norm_num [RateLimiter.init])

/-- C6 counterexample: B empties its bucket at time 100 (limiter created
at time 0, rate 1/18000, capacity 2, sweep interval 3600). If A makes
three calls at time 3650 — exhausting A's fresh bucket, third call
denied — the sweep runs during A's first call and re-stamps
`last_cleanup := 3650`, so B's call at time 7200 finds no sweep due,
keeps its empty bucket and is DENIED. Without the A-calls, B's call at
7200 itself sweeps B's stale bucket away, gets a fresh full bucket and
is ADMITTED. A-traffic changed B's outcome. -/
theorem C6_cleanup_coupling_counterexample :
    (let s2 := ((((RateLimiter.init 2 36000 1 0).isAllowed "B" 100).2).isAllowed "B" 100).2
     let a3 := (((s2.isAllowed "A" 3650).2).isAllowed "A" 3650).2.isAllowed "A" 3650
     a3.1.1 = false ∧
     ((a3.2.isAllowed "B" 7200).1).1 = false ∧
     ((s2.isAllowed "B" 7200).1).1 = true) := by
  refine ⟨?_, ?_, ?_⟩ <;>
    norm_num [RateLimiter.init, RateLimiter.isAllowed, RateLimiter.maybeCleanup,
      RateLimiter.getBucket, RateLimiter.setBucket, TokenBucket.init,
      TokenBucket.consume, TokenBucket.refill, TokenBucket.timeUntilAvailable,
      pyTrunc, min_def, show ("A" : String) ≠ "B" by decide,
      show ("B" : String) ≠ "A" by decide]

/-- C9: under a valid configuration (`requests_per_window > 0`,
`window_seconds > 0`), every bucket ever stored by any sequence of
`is_allowed` calls carries the limiter's refill rate
`requests_per_window / window_seconds`, which is positive; in
particular the divisor `self.rate` in `time_until_available` (the rate
of the refilled bucket) is never zero. All operations of the embedding
are total functions, so no call raises. -/
theorem C9_no_zero_divisor (r w : ℤ) (burst now : ℚ)
    (calls : List (String × ℚ)) (k : String) (b : TokenBucket)
    (h1 : 0 < r) (h2 : 0 < w)
    (hb : (runCalls (RateLimiter.init r w burst now) calls).buckets k = some b) :
    b.rate = (r : ℚ) / (w : ℚ) ∧ 0 < b.rate ∧
      ∀ t : ℚ, (TokenBucket.refill b t).rate ≠ 0 := by
  have base : RatesOk (RateLimiter.init r w burst now) := by
    intro k2 b2 hb2
    simp [RateLimiter.init] at hb2
  have hrok := runCalls_ratesOk calls _ base
  have hrr := runCalls_rate calls (RateLimiter.init r w burst now)
  have hbr : b.rate = (r : ℚ) / (w : ℚ) := by
    have h0 := hrok k b hb
    rw [hrr] at h0
    simpa [RateLimiter.init] using h0
  have hpos : (0 : ℚ) < (r : ℚ) / (w : ℚ) :=
    div_pos (by exact_mod_cast h1) (by exact_mod_cast h2)
  refine ⟨hbr, ?_, ?_⟩
  · rw [hbr]
    exact hpos
  · intro t
    rw [TokenBucket.refill_rate, hbr]
    exact ne_of_gt hpos

theorem C9_no_zero_divisor_witness :
    (⟨1, 1, 0, 0⟩ : TokenBucket).rate = (1 : ℚ) / 1 ∧
    0 < (⟨1, 1, 0, 0⟩ : TokenBucket).rate ∧
    (TokenBucket.refill ⟨1, 1, 0, 0⟩ 5).rate ≠ 0 := by
  have h := C9_no_zero_divisor 1 1 1 0 [("k", 0)] "k" ⟨1, 1, 0, 0⟩
    (by norm_num) (by norm_num)
    (by norm_num [runCalls, RateLimiter.init, RateLimiter.isAllowed,
      RateLimiter.maybeCleanup, RateLimiter.getBucket, RateLimiter.setBucket,
      TokenBucket.init, TokenBucket.consume, TokenBucket.refill,
      TokenBucket.timeUntilAvailable, pyTrunc, min_def])
  exact ⟨h.1, h.2.1, h.2.2 5⟩

/-- C10: every `is_allowed` call — admitted or denied — runs a refill on
the client's bucket and writes it back with `last_update = now`;
consequently a cleanup within `cleanup_interval` of the call keeps the
key. -/
theorem C10_check_refreshes (rl : RateLimiter) (k : String) (t t2 : ℚ)
    (h : t2 - t ≤ rl.cleanup_interval) :
    ∃ b, ((rl.isAllowed k t).2).buckets k = some b ∧ b.last_update = t ∧
      (((rl.isAllowed k t).2).maybeCleanup t2).buckets k = some b := by
  obtain ⟨b, hb, hlu⟩ : ∃ b, ((rl.isAllowed k t).2).buckets k = some b ∧
      b.last_update = t := by
    rw [isAllowed_snd]
    split
    · exact ⟨_, setBucket_self _ _ _, TokenBucket.consume_last_update _ _ _⟩
    · exact ⟨_, setBucket_self _ _ _,
        TokenBucket.timeUntilAvailable_last_update _ _ _⟩
  refine ⟨b, hb, hlu, maybeCleanup_keep _ t2 k b hb ?_⟩
  rw [hlu, isAllowed_interval]
  exact h

theorem C10_check_refreshes_witness :
    ∃ b, (((RateLimiter.init 1 1 1 0).isAllowed "k" 0).2).buckets "k" = some b ∧
      b.last_update = 0 ∧
      ((((RateLimiter.init 1 1 1 0).isAllowed "k" 0).2).maybeCleanup 1).buckets "k" =
        some b :=
  C10_check_refreshes (RateLimiter.init 1 1 1 0) "k" 0 1
    (by norm_num [RateLimiter.init])

end Claims

end PoiFinder
